import Mathlib

/-!
Verification development for the nado_bot level-trading engine.

The definitions below are a shallow embedding of the TypeScript sources:
  * `src/orders/tracker.ts`   — the `PositionTracker` state machine,
  * `src/strategy/engine.ts`  — the `StrategyEngine` fill handler and
    stream-price normalization,
  * `src/strategy/dynamicLevels.ts` — `calculatePivotLevels`,
  * `src/ws/manager.ts`       — the `WebSocketManager` reconnect backoff.

Modelling conventions: JavaScript numbers are modelled as rationals (`Rat`);
order digests are `String`; a JavaScript `Map` is modelled as an association
list with insertion-order semantics (`mapGet`/`mapSet`/`mapDelete`); values
parsed from the stream are `Option Rat`, `none` standing for a non-numeric
or non-finite parse result; gateway calls are supplied as oracle inputs
(`OrderResult`, cancel-success functions), since every gateway operation
returns a structured success flag rather than throwing.
-/

namespace NadoBot

/-- Association-list lookup, modelling JavaScript `Map.get`. -/
def mapGet {α β : Type} [DecidableEq α] : List (α × β) → α → Option β
  | [], _ => none
  | e :: m, k => if e.1 = k then some e.2 else mapGet m k

/-- Association-list insert/replace, modelling JavaScript `Map.set`:
an existing key keeps its position, a new key is appended. -/
def mapSet {α β : Type} [DecidableEq α] : List (α × β) → α → β → List (α × β)
  | [], k, v => [(k, v)]
  | e :: m, k, v => if e.1 = k then (k, v) :: m else e :: mapSet m k v

/-- Association-list removal, modelling JavaScript `Map.delete`. -/
def mapDelete {α β : Type} [DecidableEq α] : List (α × β) → α → List (α × β)
  | [], _ => []
  | e :: m, k => if e.1 = k then mapDelete m k else e :: mapDelete m k

theorem mapGet_mapSet_self {α β : Type} [DecidableEq α] (m : List (α × β)) (k : α) (v : β) :
    mapGet (mapSet m k v) k = some v := by
  induction m with
  | nil => simp [mapSet, mapGet]
  | cons e m ih =>
    by_cases h : e.1 = k
    · simp [mapSet, mapGet, h]
    · simp [mapSet, mapGet, h, ih]

theorem mapGet_mapSet_ne {α β : Type} [DecidableEq α] (m : List (α × β)) (k k' : α) (v : β)
    (h : k' ≠ k) : mapGet (mapSet m k v) k' = mapGet m k' := by
  have h' : ¬ k = k' := fun hh => h hh.symm
  induction m with
  | nil => simp [mapSet, mapGet, h']
  | cons e m ih =>
    by_cases he : e.1 = k
    · have he' : ¬ e.1 = k' := by rw [he]; exact fun hh => h hh.symm
      simp [mapSet, mapGet, he, he', h']
    · by_cases hek : e.1 = k'
      · simp [mapSet, mapGet, he, hek, h]
      · simp [mapSet, mapGet, he, hek, ih]

theorem mapGet_mapDelete {α β : Type} [DecidableEq α] (m : List (α × β)) (k k' : α) :
    mapGet (mapDelete m k) k' = if k' = k then none else mapGet m k' := by
  induction m with
  | nil => simp [mapDelete, mapGet]
  | cons e m ih =>
    by_cases hk : k' = k
    · subst hk
      by_cases he : e.1 = k'
      · simp only [mapDelete, he, if_true]
        simpa using ih
      · simp only [mapDelete, he, if_false, mapGet]
        simpa [he] using ih
    · have hk' : ¬ k = k' := fun hh => hk hh.symm
      by_cases he : e.1 = k
      · have he' : ¬ e.1 = k' := by rw [he]; exact hk'
        simp [mapDelete, mapGet, he, he', hk, hk', ih]
      · by_cases hek : e.1 = k'
        · simp [mapDelete, mapGet, he, hek, hk, ih]
        · simp [mapDelete, mapGet, he, hek, hk, ih]

theorem mapGet_mem {α β : Type} [DecidableEq α] {m : List (α × β)} {k : α} {v : β}
    (h : mapGet m k = some v) : (k, v) ∈ m := by
  induction m with
  | nil => simp [mapGet] at h
  | cons e m ih =>
    obtain ⟨a, b⟩ := e
    by_cases he : a = k
    · simp only [mapGet, he, if_true] at h
      subst he
      have hb : b = v := by simpa using h
      subst hb
      exact List.mem_cons_self _ _
    · simp only [mapGet, he, if_false] at h
      exact List.mem_cons_of_mem _ (ih h)

theorem mem_mapSet {α β : Type} [DecidableEq α] {m : List (α × β)} {k : α} {v : β}
    {x : α × β} (h : x ∈ mapSet m k v) : x = (k, v) ∨ x ∈ m := by
  induction m with
  | nil => simp [mapSet] at h; simp [h]
  | cons e m ih =>
    by_cases he : e.1 = k
    · simp only [mapSet, he, if_true, List.mem_cons] at h
      rcases h with h | h
      · exact Or.inl h
      · exact Or.inr (List.mem_cons_of_mem _ h)
    · simp only [mapSet, he, if_false, List.mem_cons] at h
      rcases h with h | h
      · exact Or.inr (by simp [h])
      · rcases ih h with h' | h'
        · exact Or.inl h'
        · exact Or.inr (List.mem_cons_of_mem _ h')

theorem mem_mapDelete {α β : Type} [DecidableEq α] {m : List (α × β)} {k : α}
    {x : α × β} (h : x ∈ mapDelete m k) : x ∈ m := by
  induction m with
  | nil => simp [mapDelete] at h
  | cons e m ih =>
    by_cases he : e.1 = k
    · simp only [mapDelete, he, if_true] at h
      exact List.mem_cons_of_mem _ (ih h)
    · simp only [mapDelete, he, if_false, List.mem_cons] at h
      rcases h with h | h
      · simp [h]
      · exact List.mem_cons_of_mem _ (ih h)

theorem keys_mapSet_nodup {α β : Type} [DecidableEq α] {m : List (α × β)} (k : α) (v : β)
    (h : (m.map Prod.fst).Nodup) : ((mapSet m k v).map Prod.fst).Nodup := by
  induction m with
  | nil => simp [mapSet]
  | cons e m ih =>
    by_cases he : e.1 = k
    · simpa [mapSet, he] using (by simpa [he] using h)
    · simp only [List.map_cons, List.nodup_cons] at h
      have hk : e.1 ∉ (mapSet m k v).map Prod.fst := by
        intro hmem
        rcases List.mem_map.mp hmem with ⟨x, hx, hx1⟩
        rcases mem_mapSet hx with rfl | hx'
        · exact he hx1.symm
        · exact h.1 (List.mem_map.mpr ⟨x, hx', hx1⟩)
      simp only [mapSet, he, if_false, List.map_cons, List.nodup_cons]
      exact ⟨hk, ih h.2⟩

theorem keys_mapDelete_nodup {α β : Type} [DecidableEq α] {m : List (α × β)} (k : α)
    (h : (m.map Prod.fst).Nodup) : ((mapDelete m k).map Prod.fst).Nodup := by
  induction m with
  | nil => simp [mapDelete]
  | cons e m ih =>
    simp only [List.map_cons, List.nodup_cons] at h
    by_cases he : e.1 = k
    · simpa [mapDelete, he] using ih h.2
    · have hk : e.1 ∉ (mapDelete m k).map Prod.fst := by
        intro hmem
        rcases List.mem_map.mp hmem with ⟨x, hx, hx1⟩
        exact h.1 (List.mem_map.mpr ⟨x, mem_mapDelete hx, hx1⟩)
      simp only [mapDelete, he, if_false, List.map_cons, List.nodup_cons]
      exact ⟨hk, ih h.2⟩

/-- Order side, `'long' | 'short'` in `tracker.ts`. -/
inductive OrderSide : Type
  | long
  | short
deriving DecidableEq

/-- Lifecycle status of a level position (`LevelStatus` in `tracker.ts`). -/
inductive LevelStatus : Type
  | pending
  | filled
  | tp_hit
  | sl_hit
  | cancelled
deriving DecidableEq

/-- The two exit kinds accepted by `markExit`. -/
inductive ExitType : Type
  | tp_hit
  | sl_hit
deriving DecidableEq

/-- The `LevelStatus` value written by `markExit` for each exit kind. -/
def ExitType.toStatus : ExitType → LevelStatus
  | .tp_hit => .tp_hit
  | .sl_hit => .sl_hit

/-- Active means `'pending' || 'filled'` (used by `hasActivePosition` and
`getActivePositions` in `tracker.ts`). -/
def LevelStatus.isActive : LevelStatus → Bool
  | .pending => true
  | .filled => true
  | _ => false

/-- Terminal statuses removed by `cleanup` in `tracker.ts`. -/
def LevelStatus.isTerminal : LevelStatus → Bool
  | .tp_hit => true
  | .sl_hit => true
  | .cancelled => true
  | _ => false

/-- The record tracked per level (`LevelPosition` in `tracker.ts`). The TS
string id `productId-side-level` is represented by the triple it encodes
(the rendering is injective on the tuples the tracker builds). -/
structure LevelPosition : Type where
  productId : Nat
  level : Rat
  side : OrderSide
  size : Rat
  entryOrderDigest : Option String
  tpOrderDigest : Option String
  slOrderDigest : Option String
  status : LevelStatus
  fillPrice : Option Rat
  createdAt : Nat
  updatedAt : Nat
deriving DecidableEq

/-- Slot identity: the (product, side, level) triple encoded by the TS id. -/
abbrev Slot : Type := Nat × OrderSide × Rat

/-- The slot a position's own fields encode. -/
def LevelPosition.slot (p : LevelPosition) : Slot := (p.productId, p.side, p.level)

/-- The state of `PositionTracker`: the primary registry and the
digest-to-position-id index. Timestamps (`Date.now()`) are supplied as
explicit `now` arguments to each operation. -/
structure TrackerState : Type where
  positions : List (Slot × LevelPosition)
  digestToPositionId : List (String × Slot)
deriving DecidableEq

/-- A freshly constructed tracker (`new PositionTracker()`). -/
def TrackerState.init : TrackerState := ⟨[], []⟩

/-- `PositionTracker.createPosition`. -/
def createPosition (s : TrackerState) (productId : Nat) (level : Rat) (side : OrderSide)
    (size : Rat) (entryOrderDigest : String) (now : Nat) : LevelPosition × TrackerState :=
  let id : Slot := (productId, side, level)
  let position : LevelPosition :=
    { productId := productId
      level := level
      side := side
      size := size
      entryOrderDigest := some entryOrderDigest
      tpOrderDigest := none
      slOrderDigest := none
      status := .pending
      fillPrice := none
      createdAt := now
      updatedAt := now }
  (position,
    { positions := mapSet s.positions id position
      digestToPositionId := mapSet s.digestToPositionId entryOrderDigest id })

/-- `PositionTracker.markFilled`. -/
def markFilled (s : TrackerState) (entryDigest : String) (fillPrice : Rat)
    (tpDigest slDigest : String) (now : Nat) : Option LevelPosition × TrackerState :=
  match mapGet s.digestToPositionId entryDigest with
  | none => (none, s)
  | some posId =>
    match mapGet s.positions posId with
    | none => (none, s)
    | some position =>
      let updated : LevelPosition :=
        { position with
            status := .filled
            fillPrice := some fillPrice
            tpOrderDigest := some tpDigest
            slOrderDigest := some slDigest
            updatedAt := now }
      (some updated,
        { positions := mapSet s.positions posId updated
          digestToPositionId :=
            mapSet (mapSet s.digestToPositionId tpDigest posId) slDigest posId })

/-- `PositionTracker.markExit`: records the exit kind and returns the paired
digest that needs to be cancelled. -/
def markExit (s : TrackerState) (digest : String) (exitType : ExitType) (now : Nat) :
    Option (LevelPosition × Option String) × TrackerState :=
  match mapGet s.digestToPositionId digest with
  | none => (none, s)
  | some posId =>
    match mapGet s.positions posId with
    | none => (none, s)
    | some position =>
      let updated : LevelPosition := { position with status := exitType.toStatus, updatedAt := now }
      let pairedDigest : Option String :=
        match exitType, position.slOrderDigest, position.tpOrderDigest with
        | .tp_hit, some d, _ => some d
        | .sl_hit, _, some d => some d
        | _, _, _ => none
      (some (updated, pairedDigest),
        { positions := mapSet s.positions posId updated
          digestToPositionId := s.digestToPositionId })

/-- `PositionTracker.markCancelled`: only effective while the position is
still `pending`. -/
def markCancelled (s : TrackerState) (digest : String) (now : Nat) :
    Option LevelPosition × TrackerState :=
  match mapGet s.digestToPositionId digest with
  | none => (none, s)
  | some posId =>
    match mapGet s.positions posId with
    | none => (none, s)
    | some position =>
      if position.status = .pending then
        let updated : LevelPosition := { position with status := .cancelled, updatedAt := now }
        (some updated,
          { positions := mapSet s.positions posId updated
            digestToPositionId := s.digestToPositionId })
      else (some position, s)

/-- `PositionTracker.getByEntryDigest`. -/
def getByEntryDigest (s : TrackerState) (digest : String) : Option LevelPosition :=
  match mapGet s.digestToPositionId digest with
  | none => none
  | some posId => mapGet s.positions posId

/-- `PositionTracker.getByDigest` (same lookup chain as `getByEntryDigest`). -/
def getByDigest (s : TrackerState) (digest : String) : Option LevelPosition :=
  match mapGet s.digestToPositionId digest with
  | none => none
  | some posId => mapGet s.positions posId

/-- `PositionTracker.hasActivePosition`. -/
def hasActivePosition (s : TrackerState) (productId : Nat) (side : OrderSide) (level : Rat) :
    Bool :=
  match mapGet s.positions (productId, side, level) with
  | none => false
  | some pos => pos.status.isActive

/-- `PositionTracker.getActivePositions`. -/
def getActivePositions (s : TrackerState) : List LevelPosition :=
  (s.positions.map Prod.snd).filter (fun p => p.status.isActive)

/-- The digests a record owns (entry, TP and SL), in the order `cleanup`
deletes them. -/
def LevelPosition.digests (p : LevelPosition) : List String :=
  p.entryOrderDigest.toList ++ p.tpOrderDigest.toList ++ p.slOrderDigest.toList

/-- Delete an optionally-present digest from the index, modelling the
`if (pos.xOrderDigest) this.digestToPositionId.delete(...)` lines of
`cleanup`. -/
def deleteDigest (m : List (String × Slot)) : Option String → List (String × Slot)
  | some d => mapDelete m d
  | none => m

/-- One iteration of the `cleanup` loop, for the snapshot entry `e`. -/
def cleanupStep (acc : TrackerState) (e : Slot × LevelPosition) : TrackerState :=
  if e.2.status.isTerminal then
    { positions := mapDelete acc.positions e.1
      digestToPositionId :=
        deleteDigest (deleteDigest (deleteDigest acc.digestToPositionId
          e.2.entryOrderDigest) e.2.tpOrderDigest) e.2.slOrderDigest }
  else acc

/-- `PositionTracker.cleanup`: remove completed/cancelled positions and their
digest mappings. The loop iterates over the entries present at entry to the
loop; deleting the entry under iteration does not disturb a JS `Map`
iterator, so folding over the snapshot is faithful. -/
def cleanup (s : TrackerState) : TrackerState := s.positions.foldl cleanupStep s

/-- The effect of one `cleanup` iteration on the primary registry alone. -/
def cleanupPosStep (ps : List (Slot × LevelPosition)) (e : Slot × LevelPosition) :
    List (Slot × LevelPosition) :=
  if e.2.status.isTerminal then mapDelete ps e.1 else ps

/-- The effect of one `cleanup` iteration on the digest index alone. -/
def cleanupDigStep (m : List (String × Slot)) (e : Slot × LevelPosition) :
    List (String × Slot) :=
  if e.2.status.isTerminal then
    deleteDigest (deleteDigest (deleteDigest m e.2.entryOrderDigest) e.2.tpOrderDigest)
      e.2.slOrderDigest
  else m

/-- Whether `d` is one of the record's entry/TP/SL digests. -/
def ownsDigest (p : LevelPosition) (d : String) : Bool :=
  decide (p.entryOrderDigest = some d) || decide (p.tpOrderDigest = some d)
    || decide (p.slOrderDigest = some d)

theorem cleanupStep_components (acc : TrackerState) (e : Slot × LevelPosition) :
    cleanupStep acc e =
      { positions := cleanupPosStep acc.positions e
        digestToPositionId := cleanupDigStep acc.digestToPositionId e } := by
  by_cases h : e.2.status.isTerminal <;> simp [cleanupStep, cleanupPosStep, cleanupDigStep, h]

theorem foldl_cleanupStep_components (l : List (Slot × LevelPosition)) :
    ∀ acc : TrackerState,
      l.foldl cleanupStep acc =
        { positions := l.foldl cleanupPosStep acc.positions
          digestToPositionId := l.foldl cleanupDigStep acc.digestToPositionId } := by
  induction l with
  | nil => intro acc; rfl
  | cons e l ih =>
    intro acc
    simp only [List.foldl_cons]
    rw [cleanupStep_components, ih]

theorem mapGet_foldl_cleanupPosStep (l : List (Slot × LevelPosition)) :
    ∀ (ps : List (Slot × LevelPosition)) (k : Slot),
      mapGet (l.foldl cleanupPosStep ps) k =
        if l.any (fun e => e.2.status.isTerminal && decide (e.1 = k)) then none
        else mapGet ps k := by
  induction l with
  | nil => intro ps k; simp
  | cons e l ih =>
    intro ps k
    simp only [List.foldl_cons, List.any_cons]
    rw [ih]
    rcases Bool.dichotomy (l.any (fun e => e.2.status.isTerminal && decide (e.1 = k))) with
      hl | hl
    · simp only [hl, Bool.or_false, if_false]
      rcases Bool.dichotomy e.2.status.isTerminal with ht | ht
      · simp [cleanupPosStep, ht]
      · by_cases hk : e.1 = k
        · simp [cleanupPosStep, ht, mapGet_mapDelete, hk]
        · have hk' : ¬ k = e.1 := fun hh => hk hh.symm
          simp [cleanupPosStep, ht, mapGet_mapDelete, hk, hk']
    · simp [hl]

theorem mapGet_deleteDigest (m : List (String × Slot)) (o : Option String) (d : String) :
    mapGet (deleteDigest m o) d = if o = some d then none else mapGet m d := by
  cases o with
  | none => simp [deleteDigest]
  | some d' =>
    simp only [deleteDigest, mapGet_mapDelete, Option.some.injEq]
    by_cases h : d = d'
    · simp [h]
    · have h' : ¬ d' = d := fun hh => h hh.symm
      simp [h, h']

theorem mapGet_cleanupDigStep (m : List (String × Slot)) (e : Slot × LevelPosition)
    (d : String) :
    mapGet (cleanupDigStep m e) d =
      if e.2.status.isTerminal && ownsDigest e.2 d then none else mapGet m d := by
  by_cases ht : e.2.status.isTerminal
  · simp only [cleanupDigStep, ht, if_true, mapGet_deleteDigest, ownsDigest, Bool.true_and]
    by_cases h1 : e.2.entryOrderDigest = some d <;>
      by_cases h2 : e.2.tpOrderDigest = some d <;>
        by_cases h3 : e.2.slOrderDigest = some d <;>
          simp [h1, h2, h3]
  · simp [cleanupDigStep, ht]

theorem mapGet_foldl_cleanupDigStep (l : List (Slot × LevelPosition)) :
    ∀ (m : List (String × Slot)) (d : String),
      mapGet (l.foldl cleanupDigStep m) d =
        if l.any (fun e => e.2.status.isTerminal && ownsDigest e.2 d) then none
        else mapGet m d := by
  induction l with
  | nil => intro m d; simp
  | cons e l ih =>
    intro m d
    simp only [List.foldl_cons, List.any_cons]
    rw [ih, mapGet_cleanupDigStep]
    rcases Bool.dichotomy (l.any (fun e => e.2.status.isTerminal && ownsDigest e.2 d)) with
      hl | hl
    · simp only [hl, Bool.or_false, if_false]
      rcases Bool.dichotomy (e.2.status.isTerminal && ownsDigest e.2 d) with he | he
      · simp [he]
      · simp [he]
    · simp [hl]

/-- Pointwise description of `cleanup` on the primary registry. -/
theorem mapGet_cleanup_positions (s : TrackerState) (k : Slot) :
    mapGet (cleanup s).positions k =
      if s.positions.any (fun e => e.2.status.isTerminal && decide (e.1 = k)) then none
      else mapGet s.positions k := by
  rw [cleanup, foldl_cleanupStep_components, mapGet_foldl_cleanupPosStep]

/-- Pointwise description of `cleanup` on the digest index. -/
theorem mapGet_cleanup_digest (s : TrackerState) (d : String) :
    mapGet (cleanup s).digestToPositionId d =
      if s.positions.any (fun e => e.2.status.isTerminal && ownsDigest e.2 d) then none
      else mapGet s.digestToPositionId d := by
  rw [cleanup, foldl_cleanupStep_components, mapGet_foldl_cleanupDigStep]

theorem mem_foldl_cleanupPosStep (l : List (Slot × LevelPosition)) :
    ∀ (ps : List (Slot × LevelPosition)) (x : Slot × LevelPosition),
      x ∈ l.foldl cleanupPosStep ps → x ∈ ps := by
  induction l with
  | nil => intro ps x h; simpa using h
  | cons e l ih =>
    intro ps x h
    have := ih _ _ h
    by_cases ht : e.2.status.isTerminal
    · simp only [cleanupPosStep, ht, if_true] at this
      exact mem_mapDelete this
    · simpa [cleanupPosStep, ht] using this

theorem mem_cleanup_positions {s : TrackerState} {x : Slot × LevelPosition}
    (h : x ∈ (cleanup s).positions) : x ∈ s.positions := by
  rw [cleanup, foldl_cleanupStep_components] at h
  exact mem_foldl_cleanupPosStep _ _ _ h

theorem nodup_foldl_cleanupPosStep (l : List (Slot × LevelPosition)) :
    ∀ ps : List (Slot × LevelPosition),
      (ps.map Prod.fst).Nodup → ((l.foldl cleanupPosStep ps).map Prod.fst).Nodup := by
  induction l with
  | nil => intro ps h; simpa using h
  | cons e l ih =>
    intro ps h
    simp only [List.foldl_cons]
    apply ih
    by_cases ht : e.2.status.isTerminal
    · simpa [cleanupPosStep, ht] using keys_mapDelete_nodup e.1 h
    · simpa [cleanupPosStep, ht] using h

/-- One invocation of a `PositionTracker` mutating method, with the
`Date.now()` timestamp supplied explicitly. -/
inductive TrackerOp : Type
  | create (productId : Nat) (side : OrderSide) (level : Rat) (size : Rat)
      (entryDigest : String) (now : Nat)
  | fill (entryDigest : String) (fillPrice : Rat) (tpDigest slDigest : String) (now : Nat)
  | exitOp (digest : String) (exitType : ExitType) (now : Nat)
  | cancel (digest : String) (now : Nat)
  | clean

/-- The state reached after one tracker operation. -/
def trackerStep (s : TrackerState) : TrackerOp → TrackerState
  | .create productId side level size entryDigest now =>
    (createPosition s productId level side size entryDigest now).2
  | .fill entryDigest fillPrice tpDigest slDigest now =>
    (markFilled s entryDigest fillPrice tpDigest slDigest now).2
  | .exitOp digest exitType now => (markExit s digest exitType now).2
  | .cancel digest now => (markCancelled s digest now).2
  | .clean => cleanup s

/-- The state reached after a sequence of tracker operations. -/
def runOps (s : TrackerState) : List TrackerOp → TrackerState
  | [] => s
  | op :: rest => runOps (trackerStep s op) rest

theorem runOps_append (s : TrackerState) (l1 l2 : List TrackerOp) :
    runOps s (l1 ++ l2) = runOps (runOps s l1) l2 := by
  induction l1 generalizing s with
  | nil => rfl
  | cons op l1 ih => exact ih (trackerStep s op)

/-- The preconditions under which the Strategy Engine invokes each tracker
method: `createPosition` only after the `hasActivePosition` check,
`markFilled` only for a digest resolving to a `pending` position
(`engine.ts` line 166), `markExit` only for the TP/SL digest of a `filled`
position. `markCancelled` and `cleanup` enforce their own guards. -/
def guardedOp (s : TrackerState) : TrackerOp → Bool
  | .create productId side level _ _ _ => ! hasActivePosition s productId side level
  | .fill entryDigest _ _ _ _ =>
    (getByDigest s entryDigest).all (fun p => decide (p.status = .pending))
  | .exitOp digest _ _ =>
    (getByDigest s digest).all (fun p => decide (p.status = .filled))
  | .cancel _ _ => true
  | .clean => true

/-- A sequence of operations each of which respects the engine guards in the
state where it runs. -/
def guardedRun (s : TrackerState) : List TrackerOp → Bool
  | [] => true
  | op :: rest => guardedOp s op && guardedRun (trackerStep s op) rest

theorem guardedRun_append (s : TrackerState) (l1 l2 : List TrackerOp) :
    guardedRun s (l1 ++ l2) = (guardedRun s l1 && guardedRun (runOps s l1) l2) := by
  induction l1 generalizing s with
  | nil => simp [guardedRun, runOps]
  | cons op l1 ih =>
    show (guardedOp s op && guardedRun (trackerStep s op) (l1 ++ l2)) = _
    rw [ih]
    show _ = ((guardedOp s op && guardedRun (trackerStep s op) l1)
      && guardedRun (runOps (trackerStep s op) l1) l2)
    rw [Bool.and_assoc]

/-- Well-formedness of a tracker state: registry keys are unique, and each
record is filed under the slot its own fields encode. -/
def WFTracker (s : TrackerState) : Prop :=
  (s.positions.map Prod.fst).Nodup ∧ ∀ e ∈ s.positions, e.1 = e.2.slot

theorem wf_init : WFTracker TrackerState.init := by
  constructor <;> simp [TrackerState.init]

theorem wf_trackerStep (s : TrackerState) (op : TrackerOp) (h : WFTracker s) :
    WFTracker (trackerStep s op) := by
  obtain ⟨hnd, hslot⟩ := h
  cases op with
  | create productId side level size entryDigest now =>
    constructor
    · exact keys_mapSet_nodup _ _ hnd
    · intro e he
      rcases mem_mapSet he with rfl | he'
      · rfl
      · exact hslot e he'
  | fill entryDigest fillPrice tpDigest slDigest now =>
    simp only [trackerStep, markFilled]
    split
    · exact ⟨hnd, hslot⟩
    · split
      · exact ⟨hnd, hslot⟩
      · rename_i position hp
        refine ⟨keys_mapSet_nodup _ _ hnd, ?_⟩
        intro e he
        rcases mem_mapSet he with rfl | he'
        · have := hslot _ (mapGet_mem hp)
          simpa [LevelPosition.slot] using this
        · exact hslot e he'
  | exitOp digest exitType now =>
    simp only [trackerStep, markExit]
    split
    · exact ⟨hnd, hslot⟩
    · split
      · exact ⟨hnd, hslot⟩
      · rename_i position hp
        refine ⟨keys_mapSet_nodup _ _ hnd, ?_⟩
        intro e he
        rcases mem_mapSet he with rfl | he'
        · have := hslot _ (mapGet_mem hp)
          simpa [LevelPosition.slot] using this
        · exact hslot e he'
  | cancel digest now =>
    simp only [trackerStep, markCancelled]
    split
    · exact ⟨hnd, hslot⟩
    · split
      · exact ⟨hnd, hslot⟩
      · rename_i position hp
        split
        · refine ⟨keys_mapSet_nodup _ _ hnd, ?_⟩
          intro e he
          rcases mem_mapSet he with rfl | he'
          · have := hslot _ (mapGet_mem hp)
            simpa [LevelPosition.slot] using this
          · exact hslot e he'
        · exact ⟨hnd, hslot⟩
  | clean =>
    constructor
    · simp only [trackerStep, cleanup, foldl_cleanupStep_components]
      exact nodup_foldl_cleanupPosStep _ _ hnd
    · intro e he
      exact hslot e (mem_cleanup_positions he)

theorem wf_runOps (ops : List TrackerOp) :
    ∀ s : TrackerState, WFTracker s → WFTracker (runOps s ops) := by
  induction ops with
  | nil => intro s h; exact h
  | cons op ops ih => intro s h; exact ih _ (wf_trackerStep s op h)

/-- The status transitions named by the specification's state machine:
`pending → {filled, cancelled}`, `filled → {tp_hit, sl_hit}`. -/
def specEdge (a b : LevelStatus) : Prop :=
  (a = .pending ∧ b = .filled) ∨ (a = .pending ∧ b = .cancelled) ∨
    (a = .filled ∧ b = .tp_hit) ∨ (a = .filled ∧ b = .sl_hit)

/-- A step of the specification's state machine: the status stays put or
moves along one of the named transitions. -/
def specTransitionOk (a b : LevelStatus) : Prop := a = b ∨ specEdge a b

/-- Whether the operation is a `createPosition` targeting slot `k`. -/
def createsSlot : TrackerOp → Slot → Prop
  | .create productId side level _ _ _, k => k = (productId, side, level)
  | _, _ => False

theorem not_isActive_isTerminal {a : LevelStatus} (h : ¬ a.isActive = true) :
    a.isTerminal = true := by
  cases a <;> simp_all [LevelStatus.isActive, LevelStatus.isTerminal]

/-- Effect of one guard-respecting operation on the status of the record
stored at any slot: either the record keeps its status or follows a
specification transition, or a `createPosition` replaced a terminal record
at that slot with a fresh `pending` one. -/
theorem step_status (s : TrackerState) (op : TrackerOp) (k : Slot) (p p' : LevelPosition)
    (hg : guardedOp s op = true)
    (hp : mapGet s.positions k = some p)
    (hp' : mapGet (trackerStep s op).positions k = some p') :
    specTransitionOk p.status p'.status ∨
      (createsSlot op k ∧ p'.status = .pending ∧ p.status.isTerminal = true) := by
  cases op with
  | create productId side level size entryDigest now =>
    by_cases hk : k = (productId, side, level)
    · subst hk
      simp only [trackerStep, createPosition] at hp'
      rw [mapGet_mapSet_self] at hp'
      have hp'' : p'.status = .pending := by
        cases hp'; rfl
      refine Or.inr ⟨rfl, hp'', ?_⟩
      simp only [guardedOp, hasActivePosition, hp, Bool.not_eq_true'] at hg
      exact not_isActive_isTerminal (by simp [hg])
    · simp only [trackerStep, createPosition] at hp'
      rw [mapGet_mapSet_ne _ _ _ _ hk] at hp'
      rw [hp] at hp'
      cases hp'
      exact Or.inl (Or.inl rfl)
  | fill entryDigest fillPrice tpDigest slDigest now =>
    rcases hd : mapGet s.digestToPositionId entryDigest with _ | posId
    · simp only [trackerStep, markFilled, hd] at hp'
      rw [hp] at hp'; cases hp'; exact Or.inl (Or.inl rfl)
    · rcases hpos : mapGet s.positions posId with _ | position
      · simp only [trackerStep, markFilled, hd, hpos] at hp'
        rw [hp] at hp'; cases hp'; exact Or.inl (Or.inl rfl)
      · simp only [trackerStep, markFilled, hd, hpos] at hp'
        have hpend : position.status = .pending := by
          simp only [guardedOp, getByDigest, hd, hpos, Option.all,
            decide_eq_true_eq] at hg
          exact hg
        by_cases hk : k = posId
        · subst hk
          rw [hpos] at hp; cases hp
          rw [mapGet_mapSet_self] at hp'
          cases hp'
          exact Or.inl (Or.inr (Or.inl ⟨hpend, rfl⟩))
        · rw [mapGet_mapSet_ne _ _ _ _ hk, hp] at hp'
          cases hp'
          exact Or.inl (Or.inl rfl)
  | exitOp digest exitType now =>
    rcases hd : mapGet s.digestToPositionId digest with _ | posId
    · simp only [trackerStep, markExit, hd] at hp'
      rw [hp] at hp'; cases hp'; exact Or.inl (Or.inl rfl)
    · rcases hpos : mapGet s.positions posId with _ | position
      · simp only [trackerStep, markExit, hd, hpos] at hp'
        rw [hp] at hp'; cases hp'; exact Or.inl (Or.inl rfl)
      · simp only [trackerStep, markExit, hd, hpos] at hp'
        have hfilled : position.status = .filled := by
          simp only [guardedOp, getByDigest, hd, hpos, Option.all,
            decide_eq_true_eq] at hg
          exact hg
        by_cases hk : k = posId
        · subst hk
          rw [hpos] at hp; cases hp
          rw [mapGet_mapSet_self] at hp'
          cases hp'
          cases exitType with
          | tp_hit =>
            exact Or.inl (Or.inr (Or.inr (Or.inr (Or.inl ⟨hfilled, rfl⟩))))
          | sl_hit =>
            exact Or.inl (Or.inr (Or.inr (Or.inr (Or.inr ⟨hfilled, rfl⟩))))
        · rw [mapGet_mapSet_ne _ _ _ _ hk, hp] at hp'
          cases hp'
          exact Or.inl (Or.inl rfl)
  | cancel digest now =>
    rcases hd : mapGet s.digestToPositionId digest with _ | posId
    · simp only [trackerStep, markCancelled, hd] at hp'
      rw [hp] at hp'; cases hp'; exact Or.inl (Or.inl rfl)
    · rcases hpos : mapGet s.positions posId with _ | position
      · simp only [trackerStep, markCancelled, hd, hpos] at hp'
        rw [hp] at hp'; cases hp'; exact Or.inl (Or.inl rfl)
      · by_cases hpend : position.status = .pending
        · simp only [trackerStep, markCancelled, hd, hpos, hpend, if_true] at hp'
          by_cases hk : k = posId
          · subst hk
            rw [hpos] at hp; cases hp
            rw [mapGet_mapSet_self] at hp'
            cases hp'
            exact Or.inl (Or.inr (Or.inr (Or.inl ⟨hpend, rfl⟩)))
          · rw [mapGet_mapSet_ne _ _ _ _ hk, hp] at hp'
            cases hp'
            exact Or.inl (Or.inl rfl)
        · simp only [trackerStep, markCancelled, hd, hpos, hpend, if_false] at hp'
          rw [hp] at hp'; cases hp'; exact Or.inl (Or.inl rfl)
  | clean =>
    simp only [trackerStep] at hp'
    rw [mapGet_cleanup_positions] at hp'
    split at hp'
    · cases hp'
    · rw [hp] at hp'
      cases hp'
      exact Or.inl (Or.inl rfl)

/-- A record still `pending` has no fill price yet. This holds in every
reachable tracker state, with no guard needed: only `markFilled` writes
`fillPrice`, and it simultaneously sets the status to `filled`. -/
def PendingNone (s : TrackerState) : Prop :=
  ∀ e ∈ s.positions, e.2.status = .pending → e.2.fillPrice = none

theorem pendingNone_init : PendingNone TrackerState.init := by
  intro e he
  simp [TrackerState.init] at he

theorem pendingNone_trackerStep (s : TrackerState) (op : TrackerOp) (h : PendingNone s) :
    PendingNone (trackerStep s op) := by
  cases op with
  | create productId side level size entryDigest now =>
    intro e he hpend
    rcases mem_mapSet he with rfl | he'
    · rfl
    · exact h e he' hpend
  | fill entryDigest fillPrice tpDigest slDigest now =>
    rcases hd : mapGet s.digestToPositionId entryDigest with _ | posId
    · simpa only [trackerStep, markFilled, hd] using h
    · rcases hpos : mapGet s.positions posId with _ | position
      · simpa only [trackerStep, markFilled, hd, hpos] using h
      · intro e he hpend
        simp only [trackerStep, markFilled, hd, hpos] at he
        rcases mem_mapSet he with rfl | he'
        · simp at hpend
        · exact h e he' hpend
  | exitOp digest exitType now =>
    rcases hd : mapGet s.digestToPositionId digest with _ | posId
    · simpa only [trackerStep, markExit, hd] using h
    · rcases hpos : mapGet s.positions posId with _ | position
      · simpa only [trackerStep, markExit, hd, hpos] using h
      · intro e he hpend
        simp only [trackerStep, markExit, hd, hpos] at he
        rcases mem_mapSet he with rfl | he'
        · cases exitType <;> simp [ExitType.toStatus] at hpend
        · exact h e he' hpend
  | cancel digest now =>
    rcases hd : mapGet s.digestToPositionId digest with _ | posId
    · simpa only [trackerStep, markCancelled, hd] using h
    · rcases hpos : mapGet s.positions posId with _ | position
      · simpa only [trackerStep, markCancelled, hd, hpos] using h
      · by_cases hpend : position.status = .pending
        · intro e he hp
          simp only [trackerStep, markCancelled, hd, hpos, hpend, if_true] at he
          rcases mem_mapSet he with rfl | he'
          · simp at hp
          · exact h e he' hp
        · simpa only [trackerStep, markCancelled, hd, hpos, hpend, if_false] using h
  | clean =>
    intro e he hpend
    exact h e (mem_cleanup_positions he) hpend

theorem pendingNone_runOps (ops : List TrackerOp) :
    ∀ s : TrackerState, PendingNone s → PendingNone (runOps s ops) := by
  induction ops with
  | nil => intro s h; exact h
  | cons op ops ih => intro s h; exact ih _ (pendingNone_trackerStep s op h)

/-- Effect of one guard-respecting operation on the fill price of the record
stored at any slot: it is unchanged, or this is the `markFilled` step that
sets it (from unset, at the `pending → filled` transition), or a
`createPosition` replaced the record with a fresh one whose fill price is
unset. -/
theorem step_fillPrice (s : TrackerState) (op : TrackerOp) (k : Slot) (p p' : LevelPosition)
    (hg : guardedOp s op = true)
    (hinv : PendingNone s)
    (hp : mapGet s.positions k = some p)
    (hp' : mapGet (trackerStep s op).positions k = some p') :
    p'.fillPrice = p.fillPrice ∨
      (∃ d fp tp sl now, op = TrackerOp.fill d fp tp sl now ∧ p.status = .pending ∧
        p.fillPrice = none ∧ p'.status = .filled ∧ p'.fillPrice = some fp) ∨
      (createsSlot op k ∧ p'.fillPrice = none) := by
  cases op with
  | create productId side level size entryDigest now =>
    by_cases hk : k = (productId, side, level)
    · subst hk
      simp only [trackerStep, createPosition] at hp'
      rw [mapGet_mapSet_self] at hp'
      cases hp'
      exact Or.inr (Or.inr ⟨rfl, rfl⟩)
    · simp only [trackerStep, createPosition] at hp'
      rw [mapGet_mapSet_ne _ _ _ _ hk, hp] at hp'
      cases hp'
      exact Or.inl rfl
  | fill entryDigest fillPrice tpDigest slDigest now =>
    rcases hd : mapGet s.digestToPositionId entryDigest with _ | posId
    · simp only [trackerStep, markFilled, hd] at hp'
      rw [hp] at hp'; cases hp'; exact Or.inl rfl
    · rcases hpos : mapGet s.positions posId with _ | position
      · simp only [trackerStep, markFilled, hd, hpos] at hp'
        rw [hp] at hp'; cases hp'; exact Or.inl rfl
      · simp only [trackerStep, markFilled, hd, hpos] at hp'
        have hpend : position.status = .pending := by
          simp only [guardedOp, getByDigest, hd, hpos, Option.all,
            decide_eq_true_eq] at hg
          exact hg
        by_cases hk : k = posId
        · subst hk
          rw [hpos] at hp; cases hp
          rw [mapGet_mapSet_self] at hp'
          cases hp'
          refine Or.inr (Or.inl ⟨entryDigest, fillPrice, tpDigest, slDigest, now, rfl,
            hpend, ?_, rfl, rfl⟩)
          exact hinv _ (mapGet_mem hpos) hpend
        · rw [mapGet_mapSet_ne _ _ _ _ hk, hp] at hp'
          cases hp'
          exact Or.inl rfl
  | exitOp digest exitType now =>
    rcases hd : mapGet s.digestToPositionId digest with _ | posId
    · simp only [trackerStep, markExit, hd] at hp'
      rw [hp] at hp'; cases hp'; exact Or.inl rfl
    · rcases hpos : mapGet s.positions posId with _ | position
      · simp only [trackerStep, markExit, hd, hpos] at hp'
        rw [hp] at hp'; cases hp'; exact Or.inl rfl
      · simp only [trackerStep, markExit, hd, hpos] at hp'
        by_cases hk : k = posId
        · subst hk
          rw [hpos] at hp; cases hp
          rw [mapGet_mapSet_self] at hp'
          cases hp'
          exact Or.inl rfl
        · rw [mapGet_mapSet_ne _ _ _ _ hk, hp] at hp'
          cases hp'
          exact Or.inl rfl
  | cancel digest now =>
    rcases hd : mapGet s.digestToPositionId digest with _ | posId
    · simp only [trackerStep, markCancelled, hd] at hp'
      rw [hp] at hp'; cases hp'; exact Or.inl rfl
    · rcases hpos : mapGet s.positions posId with _ | position
      · simp only [trackerStep, markCancelled, hd, hpos] at hp'
        rw [hp] at hp'; cases hp'; exact Or.inl rfl
      · by_cases hpend : position.status = .pending
        · simp only [trackerStep, markCancelled, hd, hpos, hpend, if_true] at hp'
          by_cases hk : k = posId
          · subst hk
            rw [hpos] at hp; cases hp
            rw [mapGet_mapSet_self] at hp'
            cases hp'
            exact Or.inl rfl
          · rw [mapGet_mapSet_ne _ _ _ _ hk, hp] at hp'
            cases hp'
            exact Or.inl rfl
        · simp only [trackerStep, markCancelled, hd, hpos, hpend, if_false] at hp'
          rw [hp] at hp'; cases hp'; exact Or.inl rfl
  | clean =>
    simp only [trackerStep] at hp'
    rw [mapGet_cleanup_positions] at hp'
    split at hp'
    · cases hp'
    · rw [hp] at hp'
      cases hp'
      exact Or.inl rfl

instance (a b : LevelStatus) : Decidable (specEdge a b) := by
  unfold specEdge; infer_instance

instance (a b : LevelStatus) : Decidable (specTransitionOk a b) := by
  unfold specTransitionOk; infer_instance

theorem length_filter_le_one {l : List (Slot × LevelPosition)} (k : Slot)
    (P : Slot × LevelPosition → Bool)
    (hnd : (l.map Prod.fst).Nodup)
    (hP : ∀ e ∈ l, P e = true → e.1 = k) :
    (l.filter P).length ≤ 1 := by
  induction l with
  | nil => simp
  | cons e l ih =>
    simp only [List.map_cons, List.nodup_cons] at hnd
    rcases Bool.dichotomy (P e) with hPe | hPe
    · simp only [List.filter_cons, hPe, Bool.false_eq_true, if_false]
      exact ih hnd.2 (fun x hx hPx => hP x (List.mem_cons_of_mem _ hx) hPx)
    · simp only [List.filter_cons, hPe, if_true]
      have hempty : l.filter P = [] := by
        rw [List.eq_nil_iff_forall_not_mem]
        intro x hx
        have hxl := List.mem_of_mem_filter hx
        have hPx := List.of_mem_filter hx
        have hxk := hP x (List.mem_cons_of_mem _ hxl) hPx
        have hek := hP e (List.mem_cons_self _ _) hPe
        have hmem : k ∈ List.map Prod.fst l := by
          rw [← hxk]
          exact List.mem_map_of_mem Prod.fst hxl
        exact hnd.1 (by rw [hek]; exact hmem)
      simp [hempty]

/-- C2: in every state of the Position Tracker reachable by any sequence of
operations, at most one `LevelPosition` whose (product, side, level) fields
match a given slot is `pending` or `filled`: the registry is keyed by the
slot identity, so the slot holds at most one record at all. -/
theorem C2_at_most_one_active (ops : List TrackerOp) (productId : Nat) (side : OrderSide)
    (level : Rat) :
    ((runOps TrackerState.init ops).positions.filter
      (fun e => decide (e.2.slot = (productId, side, level)) && e.2.status.isActive)).length
      ≤ 1 := by
  have hwf := wf_runOps ops TrackerState.init wf_init
  refine length_filter_le_one (productId, side, level) _ hwf.1 ?_
  intro e he hPe
  simp only [Bool.and_eq_true, decide_eq_true_eq] at hPe
  rw [hwf.2 e he, hPe.1]

/-- C1 (as stated, refuted): without the engine's guards, tracker operations
can move a status outside the specified transition diagram. Creating a
position and then calling `markExit` with its entry digest moves the status
from `pending` directly to `tp_hit`, which is not one of the specified
transitions. -/
theorem C1_counterexample :
    (mapGet (runOps TrackerState.init
        [TrackerOp.create 1 OrderSide.long 100 1 "e" 0]).positions
        (1, OrderSide.long, 100)).map LevelPosition.status = some LevelStatus.pending
    ∧ (mapGet (runOps TrackerState.init
        [TrackerOp.create 1 OrderSide.long 100 1 "e" 0,
         TrackerOp.exitOp "e" ExitType.tp_hit 1]).positions
        (1, OrderSide.long, 100)).map LevelPosition.status = some LevelStatus.tp_hit
    ∧ ¬ specTransitionOk LevelStatus.pending LevelStatus.tp_hit := by
  refine ⟨?_, ?_, ?_⟩ <;> decide

/-- C1 (amended): along any operation sequence in which `createPosition` is
only invoked for slots with no active position, `markFilled` only for a
digest resolving to a `pending` position, and `markExit` only for a digest
resolving to a `filled` position — the guards the Strategy Engine enforces —
every record's status either stays put or moves along
`pending → filled`, `pending → cancelled`, `filled → tp_hit`,
`filled → sl_hit`; a terminal record is never mutated, it can only be
replaced by a fresh `pending` record via `createPosition` for the slot. -/
theorem C1_amended (ops : List TrackerOp) (op : TrackerOp) (k : Slot)
    (p p' : LevelPosition)
    (hg : guardedRun TrackerState.init (ops ++ [op]) = true)
    (hp : mapGet (runOps TrackerState.init ops).positions k = some p)
    (hp' : mapGet (runOps TrackerState.init (ops ++ [op])).positions k = some p') :
    specTransitionOk p.status p'.status ∨
      (createsSlot op k ∧ p'.status = .pending ∧ p.status.isTerminal = true) := by
  rw [guardedRun_append, Bool.and_eq_true] at hg
  have hgop : guardedOp (runOps TrackerState.init ops) op = true := by
    have h2 := hg.2
    simp only [guardedRun, Bool.and_true] at h2
    exact h2
  rw [runOps_append] at hp'
  exact step_status _ op k p p' hgop hp hp'

/-- Closed instance of `C1_amended`: a guarded create-then-fill run makes the
`pending → filled` transition. -/
theorem C1_amended_witness : specTransitionOk LevelStatus.pending LevelStatus.filled := by
  have h := C1_amended [TrackerOp.create 1 OrderSide.long 100 1 "e" 0]
    (TrackerOp.fill "e" 100 "t" "s" 1) (1, OrderSide.long, 100)
    { productId := 1, level := 100, side := .long, size := 1,
      entryOrderDigest := some "e", tpOrderDigest := none, slOrderDigest := none,
      status := .pending, fillPrice := none, createdAt := 0, updatedAt := 0 }
    { productId := 1, level := 100, side := .long, size := 1,
      entryOrderDigest := some "e", tpOrderDigest := some "t", slOrderDigest := some "s",
      status := .filled, fillPrice := some 100, createdAt := 0, updatedAt := 1 }
    (by decide) (by decide) (by decide)
  rcases h with h | h
  · exact h
  · exact h.1.elim

/-- C5 (as stated, refuted): `markFilled` does not check the current status,
so a second `markFilled` with the same entry digest overwrites the fill
price recorded by the first. -/
theorem C5_counterexample :
    (mapGet (runOps TrackerState.init
        [TrackerOp.create 1 OrderSide.long 100 1 "e" 0,
         TrackerOp.fill "e" 100 "t1" "s1" 1]).positions
        (1, OrderSide.long, 100)).map LevelPosition.fillPrice = some (some 100)
    ∧ (mapGet (runOps TrackerState.init
        [TrackerOp.create 1 OrderSide.long 100 1 "e" 0,
         TrackerOp.fill "e" 100 "t1" "s1" 1,
         TrackerOp.fill "e" 200 "t2" "s2" 2]).positions
        (1, OrderSide.long, 100)).map LevelPosition.fillPrice = some (some 200)
    ∧ some (100 : Rat) ≠ some (200 : Rat) := by
  refine ⟨?_, ?_, ?_⟩ <;> decide

/-- C5 (amended): along any guard-respecting operation sequence (in
particular, `markFilled` only invoked for digests resolving to `pending`
positions, as the engine guarantees), a record's fill price never changes
except at the `markFilled` step itself, which sets it from unset to the
given price at the `pending → filled` transition; a `createPosition`
replacing the record starts over with an unset fill price. -/
theorem C5_amended (ops : List TrackerOp) (op : TrackerOp) (k : Slot)
    (p p' : LevelPosition)
    (hg : guardedRun TrackerState.init (ops ++ [op]) = true)
    (hp : mapGet (runOps TrackerState.init ops).positions k = some p)
    (hp' : mapGet (runOps TrackerState.init (ops ++ [op])).positions k = some p') :
    p'.fillPrice = p.fillPrice ∨
      (∃ d fp tp sl now, op = TrackerOp.fill d fp tp sl now ∧ p.status = .pending ∧
        p.fillPrice = none ∧ p'.status = .filled ∧ p'.fillPrice = some fp) ∨
      (createsSlot op k ∧ p'.fillPrice = none) := by
  rw [guardedRun_append, Bool.and_eq_true] at hg
  have hgop : guardedOp (runOps TrackerState.init ops) op = true := by
    have h2 := hg.2
    simp only [guardedRun, Bool.and_true] at h2
    exact h2
  rw [runOps_append] at hp'
  exact step_fillPrice _ op k p p' hgop
    (pendingNone_runOps ops TrackerState.init pendingNone_init) hp hp'

/-- Closed instance of `C5_amended`: in a guarded create-then-fill run the
fill step sets the fill price from `none` to the fill price. -/
theorem C5_amended_witness :
    ∃ d fp tp sl now,
      TrackerOp.fill "e" 100 "t" "s" 1 = TrackerOp.fill d fp tp sl now ∧
        LevelStatus.pending = LevelStatus.pending ∧
        (none : Option Rat) = none ∧ LevelStatus.filled = LevelStatus.filled ∧
        (some (100 : Rat)) = some fp := by
  have h := C5_amended [TrackerOp.create 1 OrderSide.long 100 1 "e" 0]
    (TrackerOp.fill "e" 100 "t" "s" 1) (1, OrderSide.long, 100)
    { productId := 1, level := 100, side := .long, size := 1,
      entryOrderDigest := some "e", tpOrderDigest := none, slOrderDigest := none,
      status := .pending, fillPrice := none, createdAt := 0, updatedAt := 0 }
    { productId := 1, level := 100, side := .long, size := 1,
      entryOrderDigest := some "e", tpOrderDigest := some "t", slOrderDigest := some "s",
      status := .filled, fillPrice := some 100, createdAt := 0, updatedAt := 1 }
    (by decide) (by decide) (by decide)
  rcases h with h | h | h
  · exact absurd h (by decide)
  · exact h
  · exact h.1.elim

theorem key_inj {l : List (Slot × LevelPosition)}
    (hnd : (l.map Prod.fst).Nodup) {a b : Slot × LevelPosition}
    (ha : a ∈ l) (hb : b ∈ l) (hk : a.1 = b.1) : a = b := by
  induction l with
  | nil => simp at ha
  | cons e l ih =>
    simp only [List.map_cons, List.nodup_cons] at hnd
    rcases List.mem_cons.mp ha with rfl | ha'
    · rcases List.mem_cons.mp hb with rfl | hb'
      · rfl
      · exact absurd (by rw [hk]; exact List.mem_map_of_mem Prod.fst hb') hnd.1
    · rcases List.mem_cons.mp hb with rfl | hb'
      · exact absurd (by rw [← hk]; exact List.mem_map_of_mem Prod.fst ha') hnd.1
      · exact ih hnd.2 ha' hb'

theorem ownsDigest_iff_mem_digests (p : LevelPosition) (d : String) :
    ownsDigest p d = true ↔ d ∈ p.digests := by
  simp only [ownsDigest, Bool.or_eq_true, decide_eq_true_eq, LevelPosition.digests,
    List.mem_append, Option.mem_toList, Option.mem_def]

/-- C4: for a position that reached `filled` with both exit references
recorded, `markExit` with `tp_hit` returns the stop-loss digest, `markExit`
with `sl_hit` returns the take-profit digest — in both cases the other exit
order, never `none`, and (when the two digests are distinct) never the one
just triggered. -/
theorem C4_markExit_paired (s : TrackerState) (d : String) (k : Slot) (p : LevelPosition)
    (tp sl : String) (now : Nat)
    (hd : mapGet s.digestToPositionId d = some k)
    (hp : mapGet s.positions k = some p)
    (_hstatus : p.status = .filled)
    (htp : p.tpOrderDigest = some tp)
    (hsl : p.slOrderDigest = some sl) :
    (markExit s d ExitType.tp_hit now).1.map Prod.snd = some (some sl)
    ∧ (markExit s d ExitType.sl_hit now).1.map Prod.snd = some (some tp)
    ∧ (tp ≠ sl →
        (markExit s d ExitType.tp_hit now).1.map Prod.snd ≠ some (some tp)
        ∧ (markExit s d ExitType.sl_hit now).1.map Prod.snd ≠ some (some sl)) := by
  refine ⟨?_, ?_, ?_⟩
  · simp [markExit, hd, hp, htp, hsl]
  · simp [markExit, hd, hp, htp, hsl]
  · intro hne
    have hne' : ¬ sl = tp := fun h => hne h.symm
    constructor
    · simp [markExit, hd, hp, htp, hsl, hne']
    · simp [markExit, hd, hp, htp, hsl, hne]

/-- Closed instance of `C4_markExit_paired` on a one-position tracker. -/
theorem C4_markExit_paired_witness :
    (markExit
      { positions := [((1, OrderSide.long, 100),
          { productId := 1, level := 100, side := .long, size := 1,
            entryOrderDigest := some "e", tpOrderDigest := some "t",
            slOrderDigest := some "s", status := .filled, fillPrice := some 100,
            createdAt := 0, updatedAt := 1 })]
        digestToPositionId := [("e", (1, OrderSide.long, 100)),
          ("t", (1, OrderSide.long, 100)), ("s", (1, OrderSide.long, 100))] }
      "t" ExitType.tp_hit 5).1.map Prod.snd = some (some "s") := by
  have h := C4_markExit_paired
    { positions := [((1, OrderSide.long, 100),
        { productId := 1, level := 100, side := .long, size := 1,
          entryOrderDigest := some "e", tpOrderDigest := some "t",
          slOrderDigest := some "s", status := .filled, fillPrice := some 100,
          createdAt := 0, updatedAt := 1 })]
      digestToPositionId := [("e", (1, OrderSide.long, 100)),
        ("t", (1, OrderSide.long, 100)), ("s", (1, OrderSide.long, 100))] }
    "t" (1, OrderSide.long, 100)
    { productId := 1, level := 100, side := .long, size := 1,
      entryOrderDigest := some "e", tpOrderDigest := some "t",
      slOrderDigest := some "s", status := .filled, fillPrice := some 100,
      createdAt := 0, updatedAt := 1 }
    "t" "s" 5 (by decide) (by decide) (by decide) (by decide) (by decide)
  exact h.1

/-- C8: `cleanup` removes exactly the records whose status is terminal
(`tp_hit`, `sl_hit`, `cancelled`) and all of their index entries, and leaves
every `pending`/`filled` record and its index entries unchanged — regardless
of the record's age, in any state whose registry keys are unique and whose
records hold pairwise-disjoint digest sets. -/
theorem C8_cleanup (s : TrackerState)
    (hnd : (s.positions.map Prod.fst).Nodup)
    (hdisj : ∀ e ∈ s.positions, ∀ e' ∈ s.positions, e ≠ e' →
      ∀ d ∈ e.2.digests, d ∉ e'.2.digests) :
    (∀ k p, mapGet s.positions k = some p →
      mapGet (cleanup s).positions k = (if p.status.isTerminal then none else some p))
    ∧ (∀ k, mapGet s.positions k = none → mapGet (cleanup s).positions k = none)
    ∧ (∀ k p, mapGet s.positions k = some p → p.status.isTerminal = true →
        ∀ d, ownsDigest p d = true → mapGet (cleanup s).digestToPositionId d = none)
    ∧ (∀ k p, mapGet s.positions k = some p → p.status.isTerminal = false →
        ∀ d, ownsDigest p d = true →
          mapGet (cleanup s).digestToPositionId d = mapGet s.digestToPositionId d) := by
  refine ⟨?_, ?_, ?_, ?_⟩
  · intro k p hp
    rw [mapGet_cleanup_positions]
    rcases Bool.dichotomy p.status.isTerminal with ht | ht
    · rw [ht]
      simp only [Bool.false_eq_true, if_false]
      have hfalse :
          s.positions.any (fun e => e.2.status.isTerminal && decide (e.1 = k)) = false := by
        rcases Bool.dichotomy
          (s.positions.any (fun e => e.2.status.isTerminal && decide (e.1 = k))) with h | h
        · exact h
        · rcases List.any_eq_true.mp h with ⟨e, he, hcond⟩
          simp only [Bool.and_eq_true, decide_eq_true_eq] at hcond
          have heq : e = (k, p) := key_inj hnd he (mapGet_mem hp) (by simp [hcond.2])
          rw [heq] at hcond
          rw [ht] at hcond
          simp at hcond
      simp [hfalse, hp]
    · rw [ht]
      simp only [if_true]
      have : s.positions.any (fun e => e.2.status.isTerminal && decide (e.1 = k)) = true :=
        List.any_eq_true.mpr ⟨(k, p), mapGet_mem hp, by simp [ht]⟩
      simp [this]
  · intro k hk
    rw [mapGet_cleanup_positions]
    split
    · rfl
    · exact hk
  · intro k p hp ht d hd
    rw [mapGet_cleanup_digest]
    have : s.positions.any (fun e => e.2.status.isTerminal && ownsDigest e.2 d) = true :=
      List.any_eq_true.mpr ⟨(k, p), mapGet_mem hp, by simp [ht, hd]⟩
    simp [this]
  · intro k p hp ht d hd
    rw [mapGet_cleanup_digest]
    have hfalse :
        s.positions.any (fun e => e.2.status.isTerminal && ownsDigest e.2 d) = false := by
      rcases Bool.dichotomy
        (s.positions.any (fun e => e.2.status.isTerminal && ownsDigest e.2 d)) with h | h
      · exact h
      · rcases List.any_eq_true.mp h with ⟨e, he, hcond⟩
        simp only [Bool.and_eq_true] at hcond
        have hne : (k, p) ≠ e := by
          intro heq
          rw [← heq] at hcond
          rw [ht] at hcond
          simp at hcond
        have hmem : d ∈ LevelPosition.digests (k, p).2 :=
          (ownsDigest_iff_mem_digests _ _).mp hd
        have hnot := hdisj (k, p) (mapGet_mem hp) e he hne d hmem
        exact absurd ((ownsDigest_iff_mem_digests _ _).mp hcond.2) hnot
    simp [hfalse]

/-- Closed instance of `C8_cleanup` on a tracker holding one `filled` and
one `cancelled` record: the cancelled record and its index entry are
removed, the filled record and its index entries survive unchanged. -/
theorem C8_cleanup_witness :
    mapGet (cleanup
      { positions := [((1, OrderSide.long, 100),
          { productId := 1, level := 100, side := .long, size := 1,
            entryOrderDigest := some "e1", tpOrderDigest := some "t1",
            slOrderDigest := some "s1", status := .filled, fillPrice := some 100,
            createdAt := 0, updatedAt := 1 }),
          ((1, OrderSide.short, 120),
          { productId := 1, level := 120, side := .short, size := 1,
            entryOrderDigest := some "e2", tpOrderDigest := none,
            slOrderDigest := none, status := .cancelled, fillPrice := none,
            createdAt := 0, updatedAt := 2 })]
        digestToPositionId := [("e1", (1, OrderSide.long, 100)),
          ("t1", (1, OrderSide.long, 100)), ("s1", (1, OrderSide.long, 100)),
          ("e2", (1, OrderSide.short, 120))] }).positions (1, OrderSide.short, 120) = none
    ∧ mapGet (cleanup
      { positions := [((1, OrderSide.long, 100),
          { productId := 1, level := 100, side := .long, size := 1,
            entryOrderDigest := some "e1", tpOrderDigest := some "t1",
            slOrderDigest := some "s1", status := .filled, fillPrice := some 100,
            createdAt := 0, updatedAt := 1 }),
          ((1, OrderSide.short, 120),
          { productId := 1, level := 120, side := .short, size := 1,
            entryOrderDigest := some "e2", tpOrderDigest := none,
            slOrderDigest := none, status := .cancelled, fillPrice := none,
            createdAt := 0, updatedAt := 2 })]
        digestToPositionId := [("e1", (1, OrderSide.long, 100)),
          ("t1", (1, OrderSide.long, 100)), ("s1", (1, OrderSide.long, 100)),
          ("e2", (1, OrderSide.short, 120))] }).digestToPositionId "e2" = none := by
  have h := C8_cleanup
    { positions := [((1, OrderSide.long, 100),
        { productId := 1, level := 100, side := .long, size := 1,
          entryOrderDigest := some "e1", tpOrderDigest := some "t1",
          slOrderDigest := some "s1", status := .filled, fillPrice := some 100,
          createdAt := 0, updatedAt := 1 }),
        ((1, OrderSide.short, 120),
        { productId := 1, level := 120, side := .short, size := 1,
          entryOrderDigest := some "e2", tpOrderDigest := none,
          slOrderDigest := none, status := .cancelled, fillPrice := none,
          createdAt := 0, updatedAt := 2 })]
      digestToPositionId := [("e1", (1, OrderSide.long, 100)),
        ("t1", (1, OrderSide.long, 100)), ("s1", (1, OrderSide.long, 100)),
        ("e2", (1, OrderSide.short, 120))] }
    (by decide) (by decide)
  constructor
  · have h1 := h.1 (1, OrderSide.short, 120)
      { productId := 1, level := 120, side := .short, size := 1,
        entryOrderDigest := some "e2", tpOrderDigest := none,
        slOrderDigest := none, status := .cancelled, fillPrice := none,
        createdAt := 0, updatedAt := 2 } (by decide)
    simpa using h1
  · have h2 := h.2.2.1 (1, OrderSide.short, 120)
      { productId := 1, level := 120, side := .short, size := 1,
        entryOrderDigest := some "e2", tpOrderDigest := none,
        slOrderDigest := none, status := .cancelled, fillPrice := none,
        createdAt := 0, updatedAt := 2 } (by decide) (by decide) "e2" (by decide)
    exact h2

/-- Strategy configuration consumed by the fill handler (`BotConfig` fields
`tpPercent`, `slPercent` in `config.ts`; defaults 1.5 and 0.75). -/
structure BotConfig : Type where
  tpPercent : Rat
  slPercent : Rat
deriving DecidableEq

/-- Result of a gateway submission (`OrderResult` in `orders/manager.ts`):
a digest plus a success flag; transport failures surface as
`success = false` with an empty digest, never as an exception. -/
structure OrderResult : Type where
  digest : String
  success : Bool
deriving DecidableEq

/-- `StrategyEngine.normalizeStreamPrice`: the parse result of the stream
field is `none` for a non-numeric or non-finite value (mapped to 0); a
finite value with magnitude above 1e12 is treated as x18 fixed-point and
divided by 1e18; anything else passes through unchanged. -/
def normalizeStreamPrice : Option Rat → Rat
  | none => 0
  | some parsed => if |parsed| > 10 ^ 12 then parsed / 10 ^ 18 else parsed

/-- The TP/SL trigger and limit prices and signed exit amount computed in
`StrategyEngine.onFill` (the TS float literals 0.995 and 1.005 are the
rationals 995/1000 and 1005/1000). -/
structure ExitOrderParams : Type where
  tpTriggerPrice : Rat
  tpLimitPrice : Rat
  slTriggerPrice : Rat
  slLimitPrice : Rat
  exitAmount : Rat
deriving DecidableEq

/-- The TP/SL price block of `StrategyEngine.onFill` (lines 189-212). -/
def computeExitParams (config : BotConfig) (isLong : Bool) (fillPrice size : Rat) :
    ExitOrderParams :=
  let tpOffset := fillPrice * (config.tpPercent / 100)
  let slOffset := fillPrice * (config.slPercent / 100)
  if isLong then
    { tpTriggerPrice := fillPrice + tpOffset
      tpLimitPrice := (fillPrice + tpOffset) * (995 / 1000)
      slTriggerPrice := fillPrice - slOffset
      slLimitPrice := (fillPrice - slOffset) * (995 / 1000)
      exitAmount := -size }
  else
    { tpTriggerPrice := fillPrice - tpOffset
      tpLimitPrice := (fillPrice - tpOffset) * (1005 / 1000)
      slTriggerPrice := fillPrice + slOffset
      slLimitPrice := (fillPrice + slOffset) * (1005 / 1000)
      exitAmount := size }

/-- The side opposite to the filled side. -/
def oppositeOf : OrderSide → OrderSide
  | .long => .short
  | .short => .long

/-- Body of the cancellation loop of
`StrategyEngine.cancelOppositePendingEntries`: the gateway outcome of
`cancelOrder` is supplied by the oracle `cancelOk`; the tracker is marked
only when the cancel succeeded. -/
def cancelFoldStep (cancelOk : String → Bool) (now : Nat) (acc : TrackerState)
    (p : LevelPosition) : TrackerState :=
  match p.entryOrderDigest with
  | none => acc
  | some d => if cancelOk d then (markCancelled acc d now).2 else acc

/-- `StrategyEngine.cancelOppositePendingEntries`. -/
def cancelOppositePendingEntries (s : TrackerState) (productId : Nat)
    (filledSide : OrderSide) (filledEntryDigest : String) (cancelOk : String → Bool)
    (now : Nat) : TrackerState :=
  let oppositeSide := oppositeOf filledSide
  let candidates := (getActivePositions s).filter (fun p =>
    decide (p.productId = productId) && decide (p.status = LevelStatus.pending)
      && decide (p.side = oppositeSide) && p.entryOrderDigest.isSome
      && decide (p.entryOrderDigest ≠ some filledEntryDigest))
  candidates.foldl (cancelFoldStep cancelOk now) s

/-- What `StrategyEngine.onFill` did: the resulting tracker, whether a
TP/SL placement failure was reported (the `log.error` branch), how many TP
and SL submissions were made, and the prices submitted (if any). -/
structure FillOutcome : Type where
  tracker : TrackerState
  reportedError : Bool
  tpSubmissions : Nat
  slSubmissions : Nat
  exitParams : Option ExitOrderParams
deriving DecidableEq

/-- `StrategyEngine.onFill`, with the gateway outcomes (`cancelOrder`,
`placeTakeProfitOrder`, `placeStopLossOrder`) supplied as oracle inputs:
unknown digests and non-pending positions are ignored; otherwise opposite
pending entries are cancelled, the TP/SL pair is submitted once, and
`markFilled` is committed exactly when both submissions succeeded. -/
def onFill (config : BotConfig) (s : TrackerState) (eventDigest : String)
    (eventPrice : Option Rat) (cancelOk : String → Bool)
    (tpResult slResult : OrderResult) (now : Nat) : FillOutcome :=
  match getByEntryDigest s eventDigest with
  | none =>
    { tracker := s, reportedError := false, tpSubmissions := 0, slSubmissions := 0,
      exitParams := none }
  | some position =>
    if position.status = LevelStatus.pending then
      let fillPrice := normalizeStreamPrice eventPrice
      let isLong := decide (position.side = OrderSide.long)
      let s1 := cancelOppositePendingEntries s position.productId position.side
        eventDigest cancelOk now
      let params := computeExitParams config isLong fillPrice position.size
      if tpResult.success && slResult.success then
        { tracker := (markFilled s1 eventDigest fillPrice tpResult.digest
            slResult.digest now).2
          reportedError := false, tpSubmissions := 1, slSubmissions := 1,
          exitParams := some params }
      else
        { tracker := s1, reportedError := true, tpSubmissions := 1, slSubmissions := 1,
          exitParams := some params }
    else
      { tracker := s, reportedError := false, tpSubmissions := 0, slSubmissions := 0,
        exitParams := none }

theorem markCancelled_digest_eq (s : TrackerState) (d : String) (now : Nat) :
    (markCancelled s d now).2.digestToPositionId = s.digestToPositionId := by
  rcases hd : mapGet s.digestToPositionId d with _ | posId
  · simp [markCancelled, hd]
  · rcases hpos : mapGet s.positions posId with _ | position
    · simp [markCancelled, hd, hpos]
    · by_cases hpend : position.status = .pending
      · simp [markCancelled, hd, hpos, hpend]
      · simp [markCancelled, hd, hpos, hpend]

theorem markCancelled_pos_ne (s : TrackerState) (d : String) (now : Nat) (k : Slot)
    (h : mapGet s.digestToPositionId d ≠ some k) :
    mapGet (markCancelled s d now).2.positions k = mapGet s.positions k := by
  rcases hd : mapGet s.digestToPositionId d with _ | posId
  · simp [markCancelled, hd]
  · have hne : k ≠ posId := by
      intro hh
      rw [hh] at h
      exact h hd
    rcases hpos : mapGet s.positions posId with _ | position
    · simp [markCancelled, hd, hpos]
    · by_cases hpend : position.status = .pending
      · simp only [markCancelled, hd, hpos, hpend, if_true]
        exact mapGet_mapSet_ne _ _ _ _ hne
      · simp [markCancelled, hd, hpos, hpend]

theorem foldl_cancel_frame (cancelOk : String → Bool) (now : Nat) (k : Slot)
    (D : List (String × Slot)) (cs : List LevelPosition)
    (hcs : ∀ p ∈ cs, ∀ dd, p.entryOrderDigest = some dd → mapGet D dd ≠ some k) :
    ∀ acc : TrackerState, acc.digestToPositionId = D →
      (cs.foldl (cancelFoldStep cancelOk now) acc).digestToPositionId = D
      ∧ mapGet (cs.foldl (cancelFoldStep cancelOk now) acc).positions k
        = mapGet acc.positions k := by
  induction cs with
  | nil => intro acc hacc; exact ⟨hacc, rfl⟩
  | cons p cs ih =>
    intro acc hacc
    simp only [List.foldl_cons]
    have hstep : (cancelFoldStep cancelOk now acc p).digestToPositionId = D
        ∧ mapGet (cancelFoldStep cancelOk now acc p).positions k
          = mapGet acc.positions k := by
      rcases hpe : p.entryOrderDigest with _ | dd
      · simp [cancelFoldStep, hpe, hacc]
      · by_cases hok : cancelOk dd = true
        · simp only [cancelFoldStep, hpe, hok, if_true]
          refine ⟨by rw [markCancelled_digest_eq, hacc], ?_⟩
          apply markCancelled_pos_ne
          rw [hacc]
          exact hcs p (List.mem_cons_self _ _) dd hpe
        · simp only [cancelFoldStep, hpe, Bool.not_eq_true] at hok
          simp [cancelFoldStep, hpe, hok, hacc]
    have hrest := ih (fun q hq => hcs q (List.mem_cons_of_mem _ hq))
      (cancelFoldStep cancelOk now acc p) hstep.1
    exact ⟨hrest.1, hrest.2.trans hstep.2⟩

/-- Frame property of the opposite-side cancellation pass: provided the
only index entry resolving to slot `k` is the filled entry digest itself,
the pass leaves the record at `k` and the whole digest index unchanged. -/
theorem cancelOpposite_frame (s : TrackerState) (productId : Nat) (filledSide : OrderSide)
    (filledEntryDigest : String) (cancelOk : String → Bool) (now : Nat) (k : Slot)
    (hUniq : ∀ dd, mapGet s.digestToPositionId dd = some k → dd = filledEntryDigest) :
    (cancelOppositePendingEntries s productId filledSide filledEntryDigest cancelOk
      now).digestToPositionId = s.digestToPositionId
    ∧ mapGet (cancelOppositePendingEntries s productId filledSide filledEntryDigest
        cancelOk now).positions k = mapGet s.positions k := by
  apply foldl_cancel_frame cancelOk now k s.digestToPositionId _ _ s rfl
  intro p hp dd hdd hmem
  have hfilter := List.of_mem_filter hp
  simp only [Bool.and_eq_true, decide_eq_true_eq] at hfilter
  have := hUniq dd hmem
  rw [this] at hdd
  exact hfilter.2 hdd

theorem markFilled_commit (s : TrackerState) (d : String) (fp : Rat) (tp sl : String)
    (now : Nat) (k : Slot) (p : LevelPosition)
    (hd : mapGet s.digestToPositionId d = some k) (hp : mapGet s.positions k = some p) :
    mapGet (markFilled s d fp tp sl now).2.positions k
      = some { p with
          status := .filled, fillPrice := some fp,
          tpOrderDigest := some tp, slOrderDigest := some sl, updatedAt := now } := by
  simp only [markFilled, hd, hp]
  exact mapGet_mapSet_self _ _ _

/-- C3: the fill handler commits the tracker to `filled` — recording the
fill price and both exit references together — exactly when both the TP and
the SL submission succeed; when either fails, the position's record is left
unchanged, the failure is reported, and exactly one TP and one SL
submission were made (no retry). The digest-uniqueness hypothesis states
that only the filled entry digest resolves to this slot, which the engine
maintains by registering fresh venue digests. -/
theorem C3_onFill_commit_iff (config : BotConfig) (s : TrackerState) (eventDigest : String)
    (eventPrice : Option Rat) (cancelOk : String → Bool) (tpResult slResult : OrderResult)
    (now : Nat) (k : Slot) (p : LevelPosition)
    (hd : mapGet s.digestToPositionId eventDigest = some k)
    (hp : mapGet s.positions k = some p)
    (hpend : p.status = .pending)
    (hUniq : ∀ dd, mapGet s.digestToPositionId dd = some k → dd = eventDigest) :
    ((tpResult.success && slResult.success) = true →
      mapGet (onFill config s eventDigest eventPrice cancelOk tpResult slResult
          now).tracker.positions k
        = some { p with
            status := .filled, fillPrice := some (normalizeStreamPrice eventPrice),
            tpOrderDigest := some tpResult.digest,
            slOrderDigest := some slResult.digest, updatedAt := now }
      ∧ (onFill config s eventDigest eventPrice cancelOk tpResult slResult
          now).reportedError = false)
    ∧ ((tpResult.success && slResult.success) = false →
        mapGet (onFill config s eventDigest eventPrice cancelOk tpResult slResult
            now).tracker.positions k = some p
        ∧ (onFill config s eventDigest eventPrice cancelOk tpResult slResult
            now).reportedError = true)
    ∧ (onFill config s eventDigest eventPrice cancelOk tpResult slResult
        now).tpSubmissions = 1
    ∧ (onFill config s eventDigest eventPrice cancelOk tpResult slResult
        now).slSubmissions = 1 := by
  have hby : getByEntryDigest s eventDigest = some p := by
    simp [getByEntryDigest, hd, hp]
  have hframe := cancelOpposite_frame s p.productId p.side eventDigest cancelOk now k hUniq
  rcases Bool.dichotomy (tpResult.success && slResult.success) with hsucc | hsucc
  · refine ⟨?_, ?_, ?_, ?_⟩
    · intro h
      rw [h] at hsucc
      cases hsucc
    · intro _
      constructor
      · have htr : (onFill config s eventDigest eventPrice cancelOk tpResult slResult
            now).tracker = cancelOppositePendingEntries s p.productId p.side
              eventDigest cancelOk now := by
          simp [onFill, hby, hpend, hsucc]
        rw [htr, hframe.2]
        exact hp
      · simp [onFill, hby, hpend, hsucc]
    · simp [onFill, hby, hpend, hsucc]
    · simp [onFill, hby, hpend, hsucc]
  · refine ⟨?_, ?_, ?_, ?_⟩
    · intro _
      constructor
      · have htr : (onFill config s eventDigest eventPrice cancelOk tpResult slResult
            now).tracker = (markFilled (cancelOppositePendingEntries s p.productId
              p.side eventDigest cancelOk now) eventDigest
              (normalizeStreamPrice eventPrice) tpResult.digest slResult.digest
              now).2 := by
          simp [onFill, hby, hpend, hsucc]
        rw [htr]
        apply markFilled_commit
        · rw [hframe.1]
          exact hd
        · rw [hframe.2]
          exact hp
      · simp [onFill, hby, hpend, hsucc]
    · intro h
      rw [h] at hsucc
      cases hsucc
    · simp [onFill, hby, hpend, hsucc]
    · simp [onFill, hby, hpend, hsucc]

/-- Closed instance of `C3_onFill_commit_iff`: on a one-position tracker
with both submissions succeeding, the record is committed to `filled` with
both references, no error is reported, and each leg was submitted once. -/
theorem C3_onFill_commit_iff_witness :
    mapGet (onFill { tpPercent := 3/2, slPercent := 3/4 }
      { positions := [((1, OrderSide.long, 100),
          { productId := 1, level := 100, side := .long, size := 1,
            entryOrderDigest := some "e", tpOrderDigest := none, slOrderDigest := none,
            status := .pending, fillPrice := none, createdAt := 0, updatedAt := 0 })]
        digestToPositionId := [("e", (1, OrderSide.long, 100))] }
      "e" (some 100) (fun _ => true) { digest := "t", success := true }
      { digest := "s", success := true } 7).tracker.positions (1, OrderSide.long, 100)
      = some
        { productId := 1, level := 100, side := .long, size := 1,
          entryOrderDigest := some "e", tpOrderDigest := some "t",
          slOrderDigest := some "s", status := .filled, fillPrice := some 100,
          createdAt := 0, updatedAt := 7 }
    ∧ (onFill { tpPercent := 3/2, slPercent := 3/4 }
      { positions := [((1, OrderSide.long, 100),
          { productId := 1, level := 100, side := .long, size := 1,
            entryOrderDigest := some "e", tpOrderDigest := none, slOrderDigest := none,
            status := .pending, fillPrice := none, createdAt := 0, updatedAt := 0 })]
        digestToPositionId := [("e", (1, OrderSide.long, 100))] }
      "e" (some 100) (fun _ => true) { digest := "t", success := true }
      { digest := "s", success := true } 7).reportedError = false := by
  have h := C3_onFill_commit_iff { tpPercent := 3/2, slPercent := 3/4 }
    { positions := [((1, OrderSide.long, 100),
        { productId := 1, level := 100, side := .long, size := 1,
          entryOrderDigest := some "e", tpOrderDigest := none, slOrderDigest := none,
          status := .pending, fillPrice := none, createdAt := 0, updatedAt := 0 })]
      digestToPositionId := [("e", (1, OrderSide.long, 100))] }
    "e" (some 100) (fun _ => true) { digest := "t", success := true }
    { digest := "s", success := true } 7 (1, OrderSide.long, 100)
    { productId := 1, level := 100, side := .long, size := 1,
      entryOrderDigest := some "e", tpOrderDigest := none, slOrderDigest := none,
      status := .pending, fillPrice := none, createdAt := 0, updatedAt := 0 }
    (by decide) (by decide) (by decide)
    (by
      intro dd hdd
      by_cases hh : ("e" : String) = dd
      · exact hh.symm
      · simp [mapGet, hh] at hdd)
  have hs := h.1 (by decide)
  have hnorm : normalizeStreamPrice (some 100) = (100 : Rat) := by decide
  rw [hnorm] at hs
  exact ⟨hs.1, hs.2⟩

/-- C6 (as stated, refuted): for a long fill at 100 with TP% = 1.5 and
SL% = 0.75, the handler computes TP limit `101.5 × 0.995 = 100.9925` and SL
limit `99.25 × 0.995 = 98.75375`; the claimed values ≈101.4925 and ≈99.1513
are not within 0.01 of what the code computes. -/
theorem C6_counterexample :
    (computeExitParams { tpPercent := 3/2, slPercent := 3/4 } true 100 1).tpLimitPrice
      = 40397/400
    ∧ (computeExitParams { tpPercent := 3/2, slPercent := 3/4 } true 100 1).tpLimitPrice
      < 1014925/10000 - 1/100
    ∧ (computeExitParams { tpPercent := 3/2, slPercent := 3/4 } true 100 1).slLimitPrice
      = 79003/800
    ∧ (computeExitParams { tpPercent := 3/2, slPercent := 3/4 } true 100 1).slLimitPrice
      < 991513/10000 - 1/100 := by
  refine ⟨?_, ?_, ?_, ?_⟩ <;>
    · simp only [computeExitParams, if_true]
      norm_num

/-- C6 (amended): for a long position filled at 100 with TP% = 1.5 and
SL% = 0.75, the handler computes TP trigger 101.5 with limit 100.9925
(= 40397/400) and SL trigger 99.25 with limit 98.75375 (= 79003/800), the
exit amount is the negated size, and when both submissions succeed the
position becomes `filled` with both references recorded. -/
theorem C6_amended :
    computeExitParams { tpPercent := 3/2, slPercent := 3/4 } true 100 1 =
      { tpTriggerPrice := 203/2, tpLimitPrice := 40397/400,
        slTriggerPrice := 397/4, slLimitPrice := 79003/800, exitAmount := -1 }
    ∧ (onFill { tpPercent := 3/2, slPercent := 3/4 }
      { positions := [((1, OrderSide.long, 100),
          { productId := 1, level := 100, side := .long, size := 1,
            entryOrderDigest := some "e", tpOrderDigest := none, slOrderDigest := none,
            status := .pending, fillPrice := none, createdAt := 0, updatedAt := 0 })]
        digestToPositionId := [("e", (1, OrderSide.long, 100))] }
      "e" (some 100) (fun _ => true) { digest := "t", success := true }
      { digest := "s", success := true } 7).exitParams
      = some
        { tpTriggerPrice := 203/2, tpLimitPrice := 40397/400,
          slTriggerPrice := 397/4, slLimitPrice := 79003/800, exitAmount := -1 }
    ∧ mapGet (onFill { tpPercent := 3/2, slPercent := 3/4 }
      { positions := [((1, OrderSide.long, 100),
          { productId := 1, level := 100, side := .long, size := 1,
            entryOrderDigest := some "e", tpOrderDigest := none, slOrderDigest := none,
            status := .pending, fillPrice := none, createdAt := 0, updatedAt := 0 })]
        digestToPositionId := [("e", (1, OrderSide.long, 100))] }
      "e" (some 100) (fun _ => true) { digest := "t", success := true }
      { digest := "s", success := true } 7).tracker.positions (1, OrderSide.long, 100)
      = some
        { productId := 1, level := 100, side := .long, size := 1,
          entryOrderDigest := some "e", tpOrderDigest := some "t",
          slOrderDigest := some "s", status := .filled, fillPrice := some 100,
          createdAt := 0, updatedAt := 7 } := by
  have hparams : computeExitParams { tpPercent := 3/2, slPercent := 3/4 } true 100 1 =
      { tpTriggerPrice := 203/2, tpLimitPrice := 40397/400,
        slTriggerPrice := 397/4, slLimitPrice := 79003/800, exitAmount := -1 } := by
    simp only [computeExitParams, if_true, ExitOrderParams.mk.injEq]
    norm_num
  have hnorm : normalizeStreamPrice (some 100) = (100 : Rat) := by decide
  have hby : getByEntryDigest
      { positions := [((1, OrderSide.long, 100),
          { productId := 1, level := 100, side := .long, size := 1,
            entryOrderDigest := some "e", tpOrderDigest := none, slOrderDigest := none,
            status := .pending, fillPrice := none, createdAt := 0, updatedAt := 0 })]
        digestToPositionId := [("e", (1, OrderSide.long, 100))] } "e"
      = some { productId := 1, level := 100, side := .long, size := 1,
               entryOrderDigest := some "e", tpOrderDigest := none,
               slOrderDigest := none, status := .pending, fillPrice := none,
               createdAt := 0, updatedAt := 0 } := by decide
  have hout : onFill { tpPercent := 3/2, slPercent := 3/4 }
      { positions := [((1, OrderSide.long, 100),
          { productId := 1, level := 100, side := .long, size := 1,
            entryOrderDigest := some "e", tpOrderDigest := none, slOrderDigest := none,
            status := .pending, fillPrice := none, createdAt := 0, updatedAt := 0 })]
        digestToPositionId := [("e", (1, OrderSide.long, 100))] }
      "e" (some 100) (fun _ => true) { digest := "t", success := true }
      { digest := "s", success := true } 7
      = { tracker := (markFilled (cancelOppositePendingEntries
            { positions := [((1, OrderSide.long, 100),
                { productId := 1, level := 100, side := .long, size := 1,
                  entryOrderDigest := some "e", tpOrderDigest := none,
                  slOrderDigest := none, status := .pending, fillPrice := none,
                  createdAt := 0, updatedAt := 0 })]
              digestToPositionId := [("e", (1, OrderSide.long, 100))] }
            1 OrderSide.long "e" (fun _ => true) 7) "e"
            (normalizeStreamPrice (some 100)) "t" "s" 7).2
          reportedError := false
          tpSubmissions := 1
          slSubmissions := 1
          exitParams := some (computeExitParams { tpPercent := 3/2, slPercent := 3/4 }
            true (normalizeStreamPrice (some 100)) 1) } := by
    simp [onFill, hby]
  have hframe := cancelOpposite_frame
    { positions := [((1, OrderSide.long, 100),
        { productId := 1, level := 100, side := .long, size := 1,
          entryOrderDigest := some "e", tpOrderDigest := none, slOrderDigest := none,
          status := .pending, fillPrice := none, createdAt := 0, updatedAt := 0 })]
      digestToPositionId := [("e", (1, OrderSide.long, 100))] }
    1 OrderSide.long "e" (fun _ => true) 7 (1, OrderSide.long, 100)
    (by
      intro dd hdd
      by_cases hh : ("e" : String) = dd
      · exact hh.symm
      · simp [mapGet, hh] at hdd)
  refine ⟨hparams, ?_, ?_⟩
  · rw [hout]
    show some (computeExitParams { tpPercent := 3/2, slPercent := 3/4 }
      true (normalizeStreamPrice (some 100)) 1) = _
    rw [hnorm, hparams]
  · rw [hout]
    show mapGet (markFilled (cancelOppositePendingEntries _ 1 OrderSide.long "e"
      (fun _ => true) 7) "e" (normalizeStreamPrice (some 100)) "t" "s"
      7).2.positions (1, OrderSide.long, 100) = _
    have hd1 := hframe.1
    have hp1 := hframe.2
    rw [hnorm]
    have hcommit := markFilled_commit _ "e" 100 "t" "s" 7 (1, OrderSide.long, 100)
      { productId := 1, level := 100, side := .long, size := 1,
        entryOrderDigest := some "e", tpOrderDigest := none, slOrderDigest := none,
        status := .pending, fillPrice := none, createdAt := 0, updatedAt := 0 }
      (by rw [hd1]; decide) (by rw [hp1]; decide)
    exact hcommit

/-- C10: stream-price normalization is total — a non-numeric or non-finite
parse maps to 0, a finite value with magnitude above 1e12 is divided by
1e18, any other finite value passes through — and a fill event whose price
fails to parse is still processed, committing the position with fill price
0 rather than rejecting it. -/
theorem C10_normalizeStreamPrice (q : Rat) :
    normalizeStreamPrice none = 0
    ∧ (|q| > 10 ^ 12 → normalizeStreamPrice (some q) = q / 10 ^ 18)
    ∧ (¬ |q| > 10 ^ 12 → normalizeStreamPrice (some q) = q)
    ∧ mapGet (onFill { tpPercent := 3/2, slPercent := 3/4 }
      { positions := [((1, OrderSide.long, 100),
          { productId := 1, level := 100, side := .long, size := 1,
            entryOrderDigest := some "e", tpOrderDigest := none, slOrderDigest := none,
            status := .pending, fillPrice := none, createdAt := 0, updatedAt := 0 })]
        digestToPositionId := [("e", (1, OrderSide.long, 100))] }
      "e" none (fun _ => true) { digest := "t", success := true }
      { digest := "s", success := true } 7).tracker.positions (1, OrderSide.long, 100)
      = some
        { productId := 1, level := 100, side := .long, size := 1,
          entryOrderDigest := some "e", tpOrderDigest := some "t",
          slOrderDigest := some "s", status := .filled, fillPrice := some 0,
          createdAt := 0, updatedAt := 7 }
    ∧ (onFill { tpPercent := 3/2, slPercent := 3/4 }
      { positions := [((1, OrderSide.long, 100),
          { productId := 1, level := 100, side := .long, size := 1,
            entryOrderDigest := some "e", tpOrderDigest := none, slOrderDigest := none,
            status := .pending, fillPrice := none, createdAt := 0, updatedAt := 0 })]
        digestToPositionId := [("e", (1, OrderSide.long, 100))] }
      "e" none (fun _ => true) { digest := "t", success := true }
      { digest := "s", success := true } 7).tpSubmissions = 1 := by
  refine ⟨rfl, ?_, ?_, ?_, ?_⟩
  · intro h
    simp [normalizeStreamPrice, h]
  · intro h
    simp [normalizeStreamPrice, h]
  · decide
  · decide

/-- Closed instance of `C10_normalizeStreamPrice` at 10^13 (x18-scaled) and
5 (already human-scaled). -/
theorem C10_normalizeStreamPrice_witness :
    normalizeStreamPrice (some (10 ^ 13)) = 10 ^ 13 / 10 ^ 18
    ∧ normalizeStreamPrice (some 5) = 5 :=
  ⟨(C10_normalizeStreamPrice (10 ^ 13)).2.1 (by decide),
   (C10_normalizeStreamPrice 5).2.2.1 (by decide)⟩

/-- One pivot level produced by `calculatePivotLevels`
(`src/strategy/dynamicLevels.ts`). -/
structure PivotLevel : Type where
  price : Rat
  side : OrderSide
  pivotType : String
deriving DecidableEq

/-- The 4-decimal rounding `Math.round(price * 10000) / 10000` of
`calculatePivotLevels` (JavaScript `Math.round` is `⌊x + 1/2⌋`, as is
Mathlib's `round`). -/
def round4 (x : Rat) : Rat := ((round (x * 10000) : Int) : Rat) / 10000

/-- `calculatePivotLevels`: pivot `P = (H+L+C)/3`, range `R = H−L`,
resistance levels `P + i·R` (short) for `i = 1..rLevelsCount` followed by
support levels `P − i·R` (long) for `i = 1..sLevelsCount`, rounded to 4
decimals. -/
def calculatePivotLevels (high low close : Rat) (rLevelsCount sLevelsCount : Nat) :
    List PivotLevel :=
  let pivot := (high + low + close) / 3
  let range := high - low
  ((List.range rLevelsCount).map (fun i =>
    { price := round4 (pivot + ((i + 1 : Nat) : Rat) * range), side := OrderSide.short,
      pivotType := "R" ++ toString (i + 1) }))
  ++ ((List.range sLevelsCount).map (fun i =>
    { price := round4 (pivot - ((i + 1 : Nat) : Rat) * range), side := OrderSide.long,
      pivotType := "S" ++ toString (i + 1) }))

/-- C7: the level calculator returns `rLevelsCount` short-side levels at
`P + i·R` (`i = 1..rLevelsCount`) followed by `sLevelsCount` long-side
levels at `P − i·R`, each rounded to 4 decimals, where `P = (H+L+C)/3` and
`R = H−L`; for H=110, L=90, C=100 with one level each this yields R1 = 120
(short) and S1 = 80 (long). -/
theorem C7_calculatePivotLevels :
    (∀ (high low close : Rat) (rc sc : Nat),
      (calculatePivotLevels high low close rc sc).length = rc + sc
      ∧ (∀ i, i < rc → (calculatePivotLevels high low close rc sc)[i]? =
          some { price := round4 ((high + low + close) / 3
                    + ((i + 1 : Nat) : Rat) * (high - low)),
                 side := OrderSide.short, pivotType := "R" ++ toString (i + 1) })
      ∧ (∀ j, j < sc → (calculatePivotLevels high low close rc sc)[rc + j]? =
          some { price := round4 ((high + low + close) / 3
                    - ((j + 1 : Nat) : Rat) * (high - low)),
                 side := OrderSide.long, pivotType := "S" ++ toString (j + 1) }))
    ∧ calculatePivotLevels 110 90 100 1 1 =
        [{ price := 120, side := OrderSide.short, pivotType := "R1" },
         { price := 80, side := OrderSide.long, pivotType := "S1" }] := by
  constructor
  · intro high low close rc sc
    refine ⟨?_, ?_, ?_⟩
    · simp [calculatePivotLevels]
    · intro i hi
      rw [calculatePivotLevels]
      rw [List.getElem?_append]
      simp [hi]
    · intro j hj
      rw [calculatePivotLevels]
      rw [List.getElem?_append]
      simp [hj, Nat.add_sub_cancel_left, Nat.not_lt.mpr (Nat.le_add_right rc j)]
  · have h120 : round4 ((110 + 90 + 100) / 3 + ((0 + 1 : Nat) : Rat) * (110 - 90))
        = 120 := by
      have harg : ((110 + 90 + 100) / 3 + ((0 + 1 : Nat) : Rat) * (110 - 90))
          * 10000 = ((1200000 : Int) : Rat) := by norm_num
      rw [round4, harg, round_intCast]
      norm_num
    have h80 : round4 ((110 + 90 + 100) / 3 - ((0 + 1 : Nat) : Rat) * (110 - 90))
        = 80 := by
      have harg : ((110 + 90 + 100) / 3 - ((0 + 1 : Nat) : Rat) * (110 - 90))
          * 10000 = ((800000 : Int) : Rat) := by norm_num
      rw [round4, harg, round_intCast]
      norm_num
    simp only [calculatePivotLevels, show List.range 1 = [0] from rfl, List.map_cons,
      List.map_nil, List.cons_append, List.nil_append]
    rw [h120, h80]
    rfl

/-- Closed instance of the indexed description in `C7_calculatePivotLevels`:
the first entry for two-level requests is R1. -/
theorem C7_calculatePivotLevels_witness :
    (calculatePivotLevels 110 90 100 2 2)[0]? =
      some { price := round4 ((110 + 90 + 100) / 3 + ((0 + 1 : Nat) : Rat) * (110 - 90)),
             side := OrderSide.short, pivotType := "R" ++ toString (0 + 1) }
    ∧ (calculatePivotLevels 110 90 100 2 2)[2 + 0]? =
      some { price := round4 ((110 + 90 + 100) / 3 - ((0 + 1 : Nat) : Rat) * (110 - 90)),
             side := OrderSide.long, pivotType := "S" ++ toString (0 + 1) } :=
  ⟨((C7_calculatePivotLevels.1 110 90 100 2 2).2.1 0 (by decide)),
   ((C7_calculatePivotLevels.1 110 90 100 2 2).2.2 0 (by decide))⟩

/-- Backoff constants of `WebSocketManager` (`src/ws/manager.ts`). -/
def maxReconnectAttempts : Nat := 20

/-- Base reconnect delay in milliseconds. -/
def baseReconnectDelay : Nat := 1000

/-- Reconnect delay cap in milliseconds. -/
def maxReconnectDelay : Nat := 30000

/-- The backoff-relevant state of `WebSocketManager`. -/
structure WSState : Type where
  reconnectAttempts : Nat
  isShuttingDown : Bool
deriving DecidableEq

/-- `WebSocketManager.scheduleReconnect`: gives up at the attempt cap,
otherwise schedules `min(base · 2^attempts, cap)` and increments the
counter. Returns the new state and the scheduled delay, if any. -/
def scheduleReconnect (s : WSState) : WSState × Option Nat :=
  if s.reconnectAttempts ≥ maxReconnectAttempts then (s, none)
  else
    ({ s with reconnectAttempts := s.reconnectAttempts + 1 },
      some (min (baseReconnectDelay * 2 ^ s.reconnectAttempts) maxReconnectDelay))

/-- The `close` handler installed in `WebSocketManager.connect`: schedules a
reconnect unless a deliberate shutdown is in progress. -/
def onSocketClose (s : WSState) : WSState × Option Nat :=
  if s.isShuttingDown then (s, none) else scheduleReconnect s

/-- The state after `n` consecutive close events starting from a fresh
connection (the `open` handler resets `reconnectAttempts` to 0) with no
shutdown in progress. -/
def afterCloses : Nat → WSState
  | 0 => { reconnectAttempts := 0, isShuttingDown := false }
  | n + 1 => (onSocketClose (afterCloses n)).1

/-- The delay scheduled by the `n`-th consecutive close event (`n ≥ 1`). -/
def nthCloseDelay (n : Nat) : Option Nat := (onSocketClose (afterCloses (n - 1))).2

theorem afterCloses_eq (n : Nat) :
    afterCloses n = { reconnectAttempts := min n maxReconnectAttempts,
                      isShuttingDown := false } := by
  induction n with
  | zero => simp [afterCloses]
  | succ n ih =>
    rw [afterCloses, ih]
    by_cases h : n ≥ maxReconnectAttempts
    · have h1 : min n maxReconnectAttempts = maxReconnectAttempts := Nat.min_eq_right h
      have h2 : min (n + 1) maxReconnectAttempts = maxReconnectAttempts :=
        Nat.min_eq_right (Nat.le_succ_of_le h)
      simp [onSocketClose, scheduleReconnect, h1, h2]
    · push_neg at h
      have h1 : min n maxReconnectAttempts = n := Nat.min_eq_left (Nat.le_of_lt h)
      have h2 : min (n + 1) maxReconnectAttempts = n + 1 := Nat.min_eq_left h
      simp [onSocketClose, scheduleReconnect, h1, h2, Nat.not_le.mpr h]

/-- C9: after `N` consecutive close events with no deliberate shutdown, the
`N`-th scheduled reconnect delay is `min(base · 2^(N−1), cap)` with base
1000 ms and cap 30000 ms, for `N` up to the 20-attempt limit; beyond the
limit no reconnect is scheduled. -/
theorem C9_reconnect_backoff :
    (∀ n, 1 ≤ n → n ≤ maxReconnectAttempts →
      nthCloseDelay n = some (min (baseReconnectDelay * 2 ^ (n - 1)) maxReconnectDelay))
    ∧ (∀ n, maxReconnectAttempts < n → nthCloseDelay n = none) := by
  constructor
  · intro n h1 h2
    rw [nthCloseDelay, afterCloses_eq]
    have hlt : n - 1 < maxReconnectAttempts := by
      omega
    have hmin : min (n - 1) maxReconnectAttempts = n - 1 :=
      Nat.min_eq_left (Nat.le_of_lt hlt)
    simp [onSocketClose, scheduleReconnect, hmin, Nat.not_le.mpr hlt]
  · intro n h
    rw [nthCloseDelay, afterCloses_eq]
    have hge : n - 1 ≥ maxReconnectAttempts := by
      omega
    have hmin : min (n - 1) maxReconnectAttempts = maxReconnectAttempts :=
      Nat.min_eq_right hge
    simp [onSocketClose, scheduleReconnect, hmin]

/-- Closed instance of `C9_reconnect_backoff`: the 1st close schedules
1000 ms, the 5th 16000 ms, the 6th caps at 30000 ms, and the 21st schedules
nothing. -/
theorem C9_reconnect_backoff_witness :
    nthCloseDelay 1 = some 1000 ∧ nthCloseDelay 5 = some 16000
    ∧ nthCloseDelay 6 = some 30000 ∧ nthCloseDelay 21 = none :=
  ⟨(C9_reconnect_backoff.1 1 (by decide) (by decide)).trans (by decide),
   (C9_reconnect_backoff.1 5 (by decide) (by decide)).trans (by decide),
   (C9_reconnect_backoff.1 6 (by decide) (by decide)).trans (by decide),
   C9_reconnect_backoff.2 21 (by decide)⟩

end NadoBot
